import Mathlib

/-!
Verification of the ensemble posterior model `MCMCModel`
(src/include/posterior_mcmc.hpp) of the bayesopt repository.

Doubles are modelled as rationals; `vectord` as `List ℚ`. The external
collaborators `Criteria` (criteria_functors.hpp) and `NonParametricProcess`
(the surrogate) are not part of the repository sources available here, so
their state is modelled from the spec: the criterion keeps a shared
criterion-selection state (an active index into a fixed set of candidate
acquisition functions, Hedge rotation) next to an independent per-particle
evaluation state, and the surrogate keeps a fit flag driven by whether its
numerical fit succeeds. The `MCMCModel` operations themselves are translated
directly from the inline member functions of posterior_mcmc.hpp.
-/

namespace BayesOpt

/-- A boost `vectord` (query point or result vector): a list of rationals. -/
abbrev Vectord := List ℚ

/-- Modelled from the spec: one hyperparameter particle drawn by the MCMC
sampler (an opaque hyperparameter vector). -/
abbrev Particle := Vectord

/-- Modelled from the spec: the external Criterion Instance
(`Criteria`, criteria_functors.hpp, not among the available sources).
`evalFn`/`evalState` are the independent per-particle evaluation state;
`nCriteria`/`activeIndex` are the criterion-selection (Hedge rotation)
state whose transitions are, per the spec, identical functions of the
shared control state; `results` is the reward bookkeeping fed by
`pushResult`. -/
structure Criteria where
  evalFn : Vectord → ℚ
  evalState : ℚ
  nCriteria : ℕ
  activeIndex : ℕ
  results : List Vectord

/-- Modelled from the spec: `Criteria::evaluate(query)` scores a query
point using the per-particle evaluation state. -/
def Criteria.evaluate (c : Criteria) (q : Vectord) : ℚ := c.evalFn q

/-- Modelled from the spec: `Criteria::requireComparison()` — true when
multiple candidate acquisition functions are in contention. -/
def Criteria.requireComparison (c : Criteria) : Bool := 1 < c.nCriteria

/-- Modelled from the spec: `Criteria::initialCriteria()` initializes the
criterion-selection state. -/
def Criteria.initialCriteria (c : Criteria) : Criteria :=
  { c with activeIndex := 0 }

/-- Modelled from the spec: `Criteria::pushResult(vector)` records a reward
observation in the Hedge bookkeeping. -/
def Criteria.pushResult (c : Criteria) (r : Vectord) : Criteria :=
  { c with results := r :: c.results }

/-- The index transition of the rotation protocol: advance cyclically
through the `k` candidate criteria. -/
def rotIdx (k j : ℕ) : ℕ := if j + 1 < k then j + 1 else 0

/-- Modelled from the spec: `Criteria::rotateCriteria()` advances the
active-criterion index and reports whether a further rotation step remains;
per the spec the criterion-selection transition is a function of the shared
control state (active index and criterion count) only. -/
def Criteria.rotateCriteria (c : Criteria) : Criteria × Bool :=
  if c.activeIndex + 1 < c.nCriteria then
    ({ c with activeIndex := c.activeIndex + 1 }, true)
  else
    ({ c with activeIndex := 0 }, false)

/-- Modelled from the spec: `Criteria::getBestCriteria(out)` writes the
best-found point from the particle's bookkeeping into `out` and returns a
label of the active acquisition strategy (the label is modelled as the
active index). -/
def Criteria.getBestCriteria (c : Criteria) : ℕ × Vectord :=
  (c.activeIndex, [c.evalState])

/-- Modelled from the spec: the external Surrogate Instance
(`NonParametricProcess`, not among the available sources): a regression
model conditioned on one particle. `fitOK` says whether its numerical fit
succeeds (e.g. covariance positive definite); `predFn` is its predictive
distribution (mean, variance). -/
structure NonParametricProcess where
  predFn : Vectord → ℚ × ℚ
  fitOK : Bool
  fitted : Bool
  nObs : ℕ

/-- Modelled from the spec: `NonParametricProcess::fitSurrogateModel()` —
full fit to the accumulated observations, failing on numerical error. -/
def NonParametricProcess.fitSurrogateModel (g : NonParametricProcess) :
    Option NonParametricProcess :=
  if g.fitOK then some { g with fitted := true } else none

/-- Modelled from the spec: `NonParametricProcess::updateSurrogateModel()` —
incremental update with the latest observation, failing on numerical
error. -/
def NonParametricProcess.updateSurrogateModel (g : NonParametricProcess) :
    Option NonParametricProcess :=
  if g.fitOK then some { g with nObs := g.nObs + 1 } else none

/-- Modelled from the spec: `NonParametricProcess::prediction(query)`
returns the predictive distribution at the query. -/
def NonParametricProcess.prediction (g : NonParametricProcess) (q : Vectord) :
    ℚ × ℚ := g.predFn q

/-- The error taxonomy of the spec that the modelled operations can
surface: `surrogateFitError` carries the failing particle index. -/
inductive BayesOptError where
  | configurationError : BayesOptError
  | samplingError : BayesOptError
  | surrogateFitError : ℕ → BayesOptError

/-- Configuration parameters (`Parameters`): the fields the ensemble layer
reads — the particle count and the number of candidate acquisition
criteria. -/
structure Parameters where
  nParticles : ℕ
  nCriteria : ℕ

/-- The ensemble posterior model `MCMCModel` (posterior_mcmc.hpp): the
particle count fixed at construction, the surrogate collection `mGP` and
the criterion collection `mCrit`, plus the input dimension kept by the
base class. -/
structure MCMCModel where
  dim : ℕ
  params : Parameters
  nParticles : ℕ
  mGP : List NonParametricProcess
  mCrit : List Criteria

/-- The per-particle loop shared by `fitSurrogateModel` and
`updateSurrogateModel`: apply `f` to each surrogate in index order starting
at index `i`; the first particle whose operation fails aborts the whole
loop with a `surrogateFitError` naming that particle's index. -/
def mapGPFrom (f : NonParametricProcess → Option NonParametricProcess)
    (i : ℕ) : List NonParametricProcess →
    Except BayesOptError (List NonParametricProcess)
  | [] => Except.ok []
  | g :: rest =>
    match f g with
    | none => Except.error (BayesOptError.surrogateFitError i)
    | some g2 => (mapGPFrom f (i + 1) rest).map (fun l => g2 :: l)

/-- `MCMCModel::fitSurrogateModel` (posterior_mcmc.hpp:97-101): fit every
particle's surrogate in index order; a particle's failure fails the whole
call. -/
def MCMCModel.fitSurrogateModel (m : MCMCModel) :
    Except BayesOptError MCMCModel :=
  (mapGPFrom NonParametricProcess.fitSurrogateModel 0 m.mGP).map
    (fun gps => { m with mGP := gps })

/-- `MCMCModel::updateSurrogateModel` (posterior_mcmc.hpp:103-107):
incrementally update every particle's surrogate in index order; a
particle's failure fails the whole call. -/
def MCMCModel.updateSurrogateModel (m : MCMCModel) :
    Except BayesOptError MCMCModel :=
  (mapGPFrom NonParametricProcess.updateSurrogateModel 0 m.mGP).map
    (fun gps => { m with mGP := gps })

/-- `MCMCModel::evaluateCriteria` (posterior_mcmc.hpp:109-117): sum the
per-particle criterion evaluations at the query and divide by the stored
`nParticles` field (no guard on `nParticles`). -/
def MCMCModel.evaluateCriteria (m : MCMCModel) (query : Vectord) : ℚ :=
  (m.mCrit.map (fun c => c.evaluate query)).sum / (m.nParticles : ℚ)

/-- `MCMCModel::criteriaRequiresComparison` (posterior_mcmc.hpp:128-129):
delegate to particle 0's criterion (`none` models the undefined read of an
empty collection). -/
def MCMCModel.criteriaRequiresComparison (m : MCMCModel) : Option Bool :=
  m.mCrit.head?.map Criteria.requireComparison

/-- `MCMCModel::setFirstCriterium` (posterior_mcmc.hpp:131-137): invoke the
initialization transition on every particle's criterion. -/
def MCMCModel.setFirstCriterium (m : MCMCModel) : MCMCModel :=
  { m with mCrit := m.mCrit.map Criteria.initialCriteria }

/-- The rotate-all loop of `setNextCriterium` (posterior_mcmc.hpp:147-150):
rotate every criterion in index order; the returned flag is the rotation
outcome of the last particle processed (`none` models the uninitialized
`rotated` variable when the collection is empty). -/
def rotateAll : List Criteria → List Criteria × Option Bool
  | [] => ([], none)
  | c :: rest =>
    let p := c.rotateCriteria
    let q := rotateAll rest
    (p.1 :: q.1, some (q.2.getD p.2))

/-- The `mCrit[0].pushResult(prevResult)` step of `setNextCriterium`
(posterior_mcmc.hpp:146): push the result on particle 0 only. -/
def pushHead (r : Vectord) : List Criteria → List Criteria
  | [] => []
  | c :: rest => c.pushResult r :: rest

/-- `MCMCModel::setNextCriterium` (posterior_mcmc.hpp:143-152): push the
previous result on particle 0's criterion, then rotate every particle's
criterion in index order and return the last particle's rotation
outcome. -/
def MCMCModel.setNextCriterium (m : MCMCModel) (prevResult : Vectord) :
    MCMCModel × Option Bool :=
  let p := rotateAll (pushHead prevResult m.mCrit)
  ({ m with mCrit := p.1 }, p.2)

/-- `MCMCModel::getBestCriteria` (posterior_mcmc.hpp:154-155): delegate to
particle 0's criterion. -/
def MCMCModel.getBestCriteria (m : MCMCModel) : Option (ℕ × Vectord) :=
  m.mCrit.head?.map Criteria.getBestCriteria

/-- `MCMCModel::getPrediction` (posterior_mcmc.hpp:157-159): delegate to
particle 0's surrogate. -/
def MCMCModel.getPrediction (m : MCMCModel) (query : Vectord) :
    Option (ℚ × ℚ) := m.mGP.head?.map (fun g => g.prediction query)

/-- Modelled from the spec: the Hyperparameter Sampler — given dimension,
particle count and a seeded engine it deterministically yields `n`
particles. -/
def sampleParticles (dim n seed : ℕ) : List Particle :=
  (List.range n).map (fun i => (List.range dim).map
    (fun j => ((seed + i + j : ℕ) : ℚ)))

/-- Modelled from the spec: the Surrogate factory — a fresh, unfitted
surrogate conditioned on one particle. -/
def mkGP (p : Particle) : NonParametricProcess :=
  { predFn := fun q => (q.sum + p.sum, 1), fitOK := true,
    fitted := false, nObs := 0 }

/-- Modelled from the spec: the Criterion factory — a fresh criterion bound
to the particle's surrogate, its selection state at index 0. -/
def mkCriteria (params : Parameters) (p : Particle) : Criteria :=
  { evalFn := fun q => q.sum + p.sum, evalState := 0,
    nCriteria := params.nCriteria, activeIndex := 0, results := [] }

/-- Modelled from the spec: the `MCMCModel(dim, params, eng)` constructor —
it computes `nParticles` from the configuration, fails with
`ConfigurationError` on an invalid dimension or particle count, and
populates the ensemble (via `setSurrogateModel`/`setCriteria`) with
`nParticles` fresh instances drawn from the prior. -/
def mkMCMCModel (dim : ℕ) (params : Parameters) (seed : ℕ) :
    Except BayesOptError MCMCModel :=
  if params.nParticles = 0 ∨ dim = 0 then
    Except.error BayesOptError.configurationError
  else
    let ps := sampleParticles dim params.nParticles seed
    Except.ok { dim := dim, params := params, nParticles := params.nParticles,
                mGP := ps.map mkGP, mCrit := ps.map (mkCriteria params) }

/-- Modelled from the spec: `MCMCModel::updateHyperParameters()` (declared
at posterior_mcmc.hpp:65, body not among the available sources) — it must
fail with `ConfigurationError` if `nParticles == 0` or the dimensionality
is invalid; otherwise it invokes the sampler for `nParticles` fresh
particles and reconstructs the per-particle surrogate and criterion
instances from scratch. -/
def MCMCModel.updateHyperParameters (m : MCMCModel) (seed : ℕ) :
    Except BayesOptError MCMCModel :=
  if m.nParticles = 0 ∨ m.dim = 0 then
    Except.error BayesOptError.configurationError
  else
    let ps := sampleParticles m.dim m.nParticles seed
    Except.ok { m with mGP := ps.map mkGP,
                       mCrit := ps.map (mkCriteria m.params) }

/-- A finite sequence of `setNextCriterium` calls, each feeding the next
state. -/
def runCalls (m : MCMCModel) : List Vectord → MCMCModel
  | [] => m
  | r :: rs => runCalls (m.setNextCriterium r).1 rs

/-- The arithmetic mean of a list of rationals. -/
def meanQ (l : List ℚ) : ℚ := l.sum / (l.length : ℚ)

/-! Concrete fixtures used by the witness theorems. -/

/-- A surrogate whose fit succeeds. -/
def gpId : NonParametricProcess :=
  { predFn := fun q => (q.sum, 1), fitOK := true, fitted := false, nObs := 0 }

/-- A surrogate whose numerical fit fails. -/
def gpBad : NonParametricProcess :=
  { predFn := fun q => (q.sum, 1), fitOK := false, fitted := false, nObs := 0 }

/-- A criterion that evaluates to the constant `x` at every query. -/
def cConst (x : ℚ) : Criteria :=
  { evalFn := fun _ => x, evalState := x, nCriteria := 1,
    activeIndex := 0, results := [] }

/-- A two-particle ensemble whose criteria return the constants 1 and 2. -/
def W2 : MCMCModel :=
  { dim := 1, params := { nParticles := 2, nCriteria := 1 }, nParticles := 2,
    mGP := [gpId, gpId], mCrit := [cConst 1, cConst 2] }

/-- A one-particle ensemble whose surrogate fit succeeds. -/
def M1 : MCMCModel :=
  { dim := 1, params := { nParticles := 1, nCriteria := 1 }, nParticles := 1,
    mGP := [gpId], mCrit := [cConst 1] }

/-- The ensemble `M1` after a successful full fit. -/
def M1F : MCMCModel := { M1 with mGP := [{ gpId with fitted := true }] }

/-- The ensemble `M1` after a successful incremental update. -/
def M1U : MCMCModel := { M1 with mGP := [{ gpId with nObs := 1 }] }

/-- A two-particle ensemble whose second surrogate fit fails. -/
def M5 : MCMCModel :=
  { dim := 1, params := { nParticles := 2, nCriteria := 1 }, nParticles := 2,
    mGP := [gpId, gpBad], mCrit := [cConst 1, cConst 2] }

/-- A degenerate ensemble: zero particles, empty collections. -/
def M0 : MCMCModel :=
  { dim := 1, params := { nParticles := 0, nCriteria := 1 }, nParticles := 0,
    mGP := [], mCrit := [] }

/-! Helper lemmas. -/

/-- `evaluateCriteria` computes the arithmetic mean of the per-particle
evaluations as soon as the criterion collection has `nParticles`
entries. -/
lemma evalCriteria_meanQ (m : MCMCModel) (q : Vectord)
    (hlen : m.mCrit.length = m.nParticles) :
    m.evaluateCriteria q = meanQ (m.mCrit.map (fun c => c.evaluate q)) := by
  unfold MCMCModel.evaluateCriteria meanQ
  rw [List.length_map, hlen]

/-! Claim theorems. -/

/-- C1: for every ensemble with `nParticles ≥ 1` particles and every query
`q`, `evaluateCriteria q` returns the arithmetic mean of the per-particle
criterion evaluations at `q`; hence for particle-wise constant criteria it
is the mean of the constants, at every query. -/
theorem evaluateCriteria_is_mean (m : MCMCModel) (q : Vectord)
    (hn : 1 ≤ m.nParticles) (hlen : m.mCrit.length = m.nParticles) :
    m.evaluateCriteria q = meanQ (m.mCrit.map (fun c => c.evaluate q)) :=
  evalCriteria_meanQ m q hlen

/-- Witness for C1: on the two-particle ensemble with constant criteria
1 and 2, the aggregated evaluation is their mean 3/2, at the query [7]. -/
theorem evaluateCriteria_is_mean_witness :
    1 ≤ W2.nParticles ∧ W2.mCrit.length = W2.nParticles
      ∧ W2.evaluateCriteria [7] = 3 / 2 := by
  refine ⟨by decide, by decide, ?_⟩
  have h := evaluateCriteria_is_mean W2 [7] (by decide) (by decide)
  rw [h]
  norm_num [W2, meanQ, cConst, Criteria.evaluate]

/-- C3: `criteriaRequiresComparison`, `getBestCriteria` and `getPrediction`
depend only on particle 0: two ensembles that agree on particle 0's
criterion and surrogate yield identical results, whatever the state of the
remaining particles. -/
theorem particle0_delegation (m1 m2 : MCMCModel)
    (hc : m1.mCrit.head? = m2.mCrit.head?)
    (hg : m1.mGP.head? = m2.mGP.head?) :
    m1.criteriaRequiresComparison = m2.criteriaRequiresComparison
    ∧ m1.getBestCriteria = m2.getBestCriteria
    ∧ ∀ q, m1.getPrediction q = m2.getPrediction q := by
  refine ⟨?_, ?_, fun q => ?_⟩ <;>
    simp only [MCMCModel.criteriaRequiresComparison, MCMCModel.getBestCriteria,
      MCMCModel.getPrediction, hc, hg]

/-- Witness for C3: the ensembles `W2` and `M5` share particle 0 but
differ on particle 1 (different constant criterion, failing surrogate);
the three delegated reads agree. -/
theorem particle0_delegation_witness :
    W2.criteriaRequiresComparison = M5.criteriaRequiresComparison
    ∧ W2.getBestCriteria = M5.getBestCriteria
    ∧ W2.getPrediction [3] = M5.getPrediction [3] := by
  have h := particle0_delegation W2 M5 rfl rfl
  exact ⟨h.1, h.2.1, h.2.2 [3]⟩

/-- C7: `updateHyperParameters` fails with `ConfigurationError` whenever
the particle count is zero or the dimensionality is invalid. -/
theorem updateHyperParameters_invalid (m : MCMCModel) (seed : ℕ)
    (h : m.nParticles = 0 ∨ m.dim = 0) :
    m.updateHyperParameters seed
      = Except.error BayesOptError.configurationError := by
  unfold MCMCModel.updateHyperParameters
  rw [if_pos h]

/-- Witness for C7: the zero-particle ensemble `M0` fails its
hyperparameter update with a configuration error. -/
theorem updateHyperParameters_invalid_witness :
    M0.nParticles = 0
    ∧ M0.updateHyperParameters 0
        = Except.error BayesOptError.configurationError :=
  ⟨rfl, updateHyperParameters_invalid M0 0 (Or.inl rfl)⟩

/-- C9: the division by the stored `nParticles` is unguarded: the quotient
shape holds for every ensemble, including the degenerate one with an empty
criterion collection and `nParticles = 0`, where the call completes
normally with the junk quotient `0 / 0` rather than raising; the result is
the true mean only under the precondition `nParticles ≥ 1` with exactly
`nParticles` criteria present. -/
theorem evaluateCriteria_unguarded :
    (∀ (m : MCMCModel) (q : Vectord),
      m.evaluateCriteria q
        = (m.mCrit.map (fun c => c.evaluate q)).sum / (m.nParticles : ℚ))
    ∧ (∀ q, M0.evaluateCriteria q = 0 / (0 : ℚ))
    ∧ (∀ (m : MCMCModel) (q : Vectord), 1 ≤ m.nParticles →
        m.mCrit.length = m.nParticles →
        m.evaluateCriteria q = meanQ (m.mCrit.map (fun c => c.evaluate q))) := by
  refine ⟨fun m q => rfl, fun q => ?_, fun m q _ hlen => evalCriteria_meanQ m q hlen⟩
  simp [MCMCModel.evaluateCriteria, M0]

/-- Witness for C9: at the degenerate ensemble the call completes and
returns the junk value 0; at the well-formed two-particle ensemble the
precondition holds and the call returns the mean. -/
theorem evaluateCriteria_unguarded_witness :
    M0.evaluateCriteria [] = 0 ∧ W2.evaluateCriteria [0] = 3 / 2 := by
  have h := evaluateCriteria_unguarded
  constructor
  · rw [h.2.1 []]
    norm_num
  · rw [h.2.2 W2 [0] (by decide) (by decide)]
    norm_num [W2, meanQ, cConst, Criteria.evaluate]

/-- The rotate-all loop maps the rotation transition over the whole
collection, in order. -/
lemma rotateAll_fst (l : List Criteria) :
    (rotateAll l).1 = l.map (fun c => c.rotateCriteria.1) := by
  induction l with
  | nil => rfl
  | cons c rest ih => simp [rotateAll, ih]

/-- The flag returned by the rotate-all loop is the rotation outcome of
the last element of the collection (none when the collection is empty). -/
lemma rotateAll_snd (l : List Criteria) :
    (rotateAll l).2 = l.getLast?.map (fun c => c.rotateCriteria.2) := by
  induction l with
  | nil => rfl
  | cons c rest ih =>
    cases rest with
    | nil => rfl
    | cons d r2 =>
      have hne : d :: r2 ≠ ([] : List Criteria) := by simp
      have hstep : (rotateAll (c :: d :: r2)).2
          = some ((rotateAll (d :: r2)).2.getD c.rotateCriteria.2) := rfl
      rw [hstep, ih, List.getLast?_cons_cons, List.getLast?_eq_getLast _ hne]
      simp

/-- Pushing the previous result touches only the head of the criterion
collection. -/
lemma pushHead_getElem (r : Vectord) (l : List Criteria) (i : ℕ) :
    (pushHead r l)[i]?
      = if i = 0 then (l[i]?).map (fun c => c.pushResult r) else l[i]? := by
  cases l with
  | nil => cases i <;> simp [pushHead]
  | cons c rest => cases i <;> simp [pushHead]

/-- Pushing the previous result keeps the collection length. -/
lemma pushHead_length (r : Vectord) (l : List Criteria) :
    (pushHead r l).length = l.length := by
  cases l <;> simp [pushHead]

/-- C2: `setNextCriterium` pushes `prevResult` on particle 0's criterion
only, then applies the rotation transition to every particle in index
order, and returns the rotation outcome of the last particle processed
(index `nParticles - 1`). -/
theorem setNextCriterium_push_rotate_last (m : MCMCModel) (r : Vectord)
    (hn : 1 ≤ m.nParticles) (hlen : m.mCrit.length = m.nParticles) :
    (∀ i : ℕ, (pushHead r m.mCrit)[i]?
        = if i = 0 then (m.mCrit[i]?).map (fun c => c.pushResult r)
          else m.mCrit[i]?)
    ∧ (∀ i : ℕ, ((m.setNextCriterium r).1.mCrit)[i]?
        = ((pushHead r m.mCrit)[i]?).map (fun c => c.rotateCriteria.1))
    ∧ (m.setNextCriterium r).2
        = ((pushHead r m.mCrit)[m.nParticles - 1]?).map
            (fun c => c.rotateCriteria.2) := by
  refine ⟨fun i => pushHead_getElem r m.mCrit i, fun i => ?_, ?_⟩
  · simp [MCMCModel.setNextCriterium, rotateAll_fst, List.getElem?_map]
  · have hlen2 : (pushHead r m.mCrit).length = m.nParticles := by
      rw [pushHead_length, hlen]
    simp only [MCMCModel.setNextCriterium, rotateAll_snd]
    rw [List.getLast?_eq_getElem?, hlen2]

/-- Witness for C2: instantiation on the two-particle ensemble `W2`:
particle 1's entry is not pushed, every entry is rotated, and the returned
flag is particle 1's rotation outcome. -/
theorem setNextCriterium_push_rotate_last_witness :
    ((pushHead [5] W2.mCrit)[1]? = W2.mCrit[1]?)
    ∧ (((W2.setNextCriterium [5]).1.mCrit)[0]?
        = ((pushHead [5] W2.mCrit)[0]?).map (fun c => c.rotateCriteria.1))
    ∧ ((W2.setNextCriterium [5]).2
        = ((pushHead [5] W2.mCrit)[W2.nParticles - 1]?).map
            (fun c => c.rotateCriteria.2)) := by
  have h := setNextCriterium_push_rotate_last W2 [5] (by decide) (by decide)
  exact ⟨by simpa using h.1 1, h.2.1 0, h.2.2⟩

/-- The rotation transition changes neither the criterion count, and moves
the active index by the shared transition `rotIdx`. -/
lemma rotate_fst_fields (c : Criteria) :
    (c.rotateCriteria.1).nCriteria = c.nCriteria
    ∧ (c.rotateCriteria.1).activeIndex = rotIdx c.nCriteria c.activeIndex := by
  unfold Criteria.rotateCriteria rotIdx
  split <;> exact ⟨rfl, rfl⟩

/-- Pushing a result changes neither the criterion count nor the active
index. -/
lemma pushResult_fields (c : Criteria) (r : Vectord) :
    (c.pushResult r).nCriteria = c.nCriteria
    ∧ (c.pushResult r).activeIndex = c.activeIndex := ⟨rfl, rfl⟩

/-- All criteria aligned: every criterion in the ensemble carries the
criterion count `k` and the active index `j`. -/
def critAligned (k j : ℕ) (m : MCMCModel) : Prop :=
  ∀ c ∈ m.mCrit, c.nCriteria = k ∧ c.activeIndex = j

/-- Membership in a pushed collection comes from membership in the
original collection, up to a `pushResult` on the head. -/
lemma pushHead_mem (r : Vectord) (l : List Criteria) (c : Criteria)
    (hc : c ∈ pushHead r l) :
    c ∈ l ∨ ∃ c0 ∈ l, c = c0.pushResult r := by
  cases l with
  | nil => simp [pushHead] at hc
  | cons c0 rest =>
    rcases List.mem_cons.1 hc with h | h
    · exact Or.inr ⟨c0, List.mem_cons_self c0 rest, h⟩
    · exact Or.inl (List.mem_cons_of_mem c0 h)

/-- One `setNextCriterium` call keeps the ensemble aligned, moving the
shared active index by `rotIdx`. -/
lemma setNext_preserves_aligned (m : MCMCModel) (r : Vectord) (k j : ℕ)
    (h : critAligned k j m) :
    critAligned k (rotIdx k j) (m.setNextCriterium r).1 := by
  intro c hc
  simp only [MCMCModel.setNextCriterium, rotateAll_fst] at hc
  obtain ⟨c1, hc1, rfl⟩ := List.mem_map.1 hc
  have h1 : c1.nCriteria = k ∧ c1.activeIndex = j := by
    rcases pushHead_mem r m.mCrit c1 hc1 with h2 | ⟨c0, hc0, rfl⟩
    · exact h c1 h2
    · have h0 := h c0 hc0
      exact ⟨((pushResult_fields c0 r).1).trans h0.1,
             ((pushResult_fields c0 r).2).trans h0.2⟩
  have h2 := rotate_fst_fields c1
  exact ⟨h2.1.trans h1.1, by rw [h2.2, h1.1, h1.2]⟩

/-- A sequence of `setNextCriterium` calls keeps the ensemble aligned at
some shared active index. -/
lemma runCalls_aligned (rs : List Vectord) :
    ∀ (m : MCMCModel) (k j : ℕ), critAligned k j m →
      ∃ j2, critAligned k j2 (runCalls m rs) := by
  induction rs with
  | nil => exact fun m k j h => ⟨j, h⟩
  | cons r rs ih =>
    intro m k j h
    exact ih (m.setNextCriterium r).1 k (rotIdx k j)
      (setNext_preserves_aligned m r k j h)

/-- C4: for every ensemble with `nParticles ≥ 1` whose criteria start
aligned (same criterion count `k`, same active index `j`, as established at
construction), after any finite sequence of `setNextCriterium` calls the
active-criterion index is identical across all particles. -/
theorem setNextCriterium_sync (m : MCMCModel) (k j : ℕ) (rs : List Vectord)
    (hn : 1 ≤ m.nParticles)
    (hal : ∀ c ∈ m.mCrit, c.nCriteria = k ∧ c.activeIndex = j) :
    ∀ c1 ∈ (runCalls m rs).mCrit, ∀ c2 ∈ (runCalls m rs).mCrit,
      c1.activeIndex = c2.activeIndex := by
  obtain ⟨j2, h2⟩ := runCalls_aligned rs m k j hal
  intro c1 h1 c2 hc2
  rw [(h2 c1 h1).2, (h2 c2 hc2).2]

/-- Witness for C4: on the two-particle ensemble `W2`, after the call
sequence with results [1] then [2], particles 0 and 1 carry the same
active index. -/
theorem setNextCriterium_sync_witness :
    ((runCalls W2 [[1], [2]]).mCrit.get ⟨0, by decide⟩).activeIndex
      = ((runCalls W2 [[1], [2]]).mCrit.get ⟨1, by decide⟩).activeIndex := by
  have hal : ∀ c ∈ W2.mCrit, c.nCriteria = 1 ∧ c.activeIndex = 0 := by
    intro c hc
    simp only [W2, cConst] at hc
    rcases List.mem_cons.1 hc with h | h
    · subst h; exact ⟨rfl, rfl⟩
    · rcases List.mem_cons.1 h with h2 | h2
      · subst h2; exact ⟨rfl, rfl⟩
      · simp at h2
  have h := setNextCriterium_sync W2 1 0 [[1], [2]] (by decide) hal
  exact h _ (List.get_mem _ _ (by decide)) _ (List.get_mem _ _ (by decide))

/-- The per-particle loop stops at the first failing particle and reports
its absolute index (`k` is the index of the first element of `l`). -/
lemma mapGPFrom_first_fail (f : NonParametricProcess → Option NonParametricProcess)
    (l : List NonParametricProcess) (i : ℕ) (hi : i < l.length)
    (hfail : f (l.get ⟨i, hi⟩) = none)
    (hfirst : ∀ (j : ℕ) (hj : j < l.length), j < i →
        ∃ g2, f (l.get ⟨j, hj⟩) = some g2) :
    ∀ k, mapGPFrom f k l = Except.error (BayesOptError.surrogateFitError (k + i)) := by
  induction l generalizing i with
  | nil => exact absurd hi (by simp)
  | cons g rest ih =>
    intro k
    cases i with
    | zero =>
      have hg : f g = none := hfail
      simp [mapGPFrom, hg]
    | succ i2 =>
      obtain ⟨g2, hg2⟩ := hfirst 0 (by simp) (Nat.succ_pos i2)
      have hg2 : f g = some g2 := hg2
      have hi2 : i2 < rest.length := Nat.lt_of_succ_lt_succ (by simpa using hi)
      have hfail2 : f (rest.get ⟨i2, hi2⟩) = none := hfail
      have hfirst2 : ∀ (j : ℕ) (hj : j < rest.length), j < i2 →
          ∃ g3, f (rest.get ⟨j, hj⟩) = some g3 := by
        intro j hj hji
        exact hfirst (j + 1) (by simpa using Nat.succ_lt_succ hj)
          (Nat.succ_lt_succ hji)
      have hrec := ih i2 hi2 hfail2 hfirst2 (k + 1)
      simp only [mapGPFrom, hg2, hrec, Except.map]
      have : k + 1 + i2 = k + (i2 + 1) := by omega
      rw [this]

/-- The per-particle loop returns a collection of the input's length when
it succeeds. -/
lemma mapGPFrom_ok_length (f : NonParametricProcess → Option NonParametricProcess)
    (l : List NonParametricProcess) :
    ∀ (k : ℕ) (l2 : List NonParametricProcess),
      mapGPFrom f k l = Except.ok l2 → l2.length = l.length := by
  induction l with
  | nil =>
    intro k l2 h
    simp only [mapGPFrom] at h
    cases h
    rfl
  | cons g rest ih =>
    intro k l2 h
    cases hf : f g with
    | none => simp [mapGPFrom, hf] at h
    | some g2 =>
      cases hr : mapGPFrom f (k + 1) rest with
      | error e => simp [mapGPFrom, hf, hr, Except.map] at h
      | ok lr =>
        simp only [mapGPFrom, hf, hr, Except.map, Except.ok.injEq] at h
        rw [← h]
        simp [ih (k + 1) lr hr]

/-- A successful surrogate-collection rebuild leaves every other field of
the ensemble untouched. -/
lemma mapGP_ok_frame (f : NonParametricProcess → Option NonParametricProcess)
    (m m2 : MCMCModel)
    (h : (mapGPFrom f 0 m.mGP).map (fun gps => { m with mGP := gps })
          = Except.ok m2) :
    m2.mCrit = m.mCrit ∧ m2.nParticles = m.nParticles ∧ m2.dim = m.dim
      ∧ m2.params = m.params ∧ m2.mGP.length = m.mGP.length := by
  cases he : mapGPFrom f 0 m.mGP with
  | error e => rw [he] at h; simp [Except.map] at h
  | ok gps =>
    rw [he] at h
    simp only [Except.map, Except.ok.injEq] at h
    rw [← h]
    exact ⟨rfl, rfl, rfl, rfl, mapGPFrom_ok_length f m.mGP 0 gps he⟩

/-- C5: if one particle's surrogate fit fails (first failing index `i`),
both `fitSurrogateModel` and `updateSurrogateModel` fail as a whole with a
`surrogateFitError` naming that particle's index — no partial success over
the remaining particles. -/
theorem fit_failure_fails_whole (m : MCMCModel) (i : ℕ)
    (hi : i < m.mGP.length)
    (hfail : (m.mGP.get ⟨i, hi⟩).fitOK = false)
    (hfirst : ∀ (j : ℕ) (hj : j < m.mGP.length), j < i →
        (m.mGP.get ⟨j, hj⟩).fitOK = true) :
    m.fitSurrogateModel = Except.error (BayesOptError.surrogateFitError i)
    ∧ m.updateSurrogateModel
        = Except.error (BayesOptError.surrogateFitError i) := by
  constructor
  · unfold MCMCModel.fitSurrogateModel
    rw [mapGPFrom_first_fail NonParametricProcess.fitSurrogateModel m.mGP i hi
      (by simp only [NonParametricProcess.fitSurrogateModel, hfail]; rfl)
      (fun j hj hji => ⟨{ m.mGP.get ⟨j, hj⟩ with fitted := true },
        by simp only [NonParametricProcess.fitSurrogateModel, hfirst j hj hji]
           rfl⟩) 0]
    simp [Except.map]
  · unfold MCMCModel.updateSurrogateModel
    rw [mapGPFrom_first_fail NonParametricProcess.updateSurrogateModel m.mGP i hi
      (by simp only [NonParametricProcess.updateSurrogateModel, hfail]; rfl)
      (fun j hj hji => ⟨{ m.mGP.get ⟨j, hj⟩ with
          nObs := (m.mGP.get ⟨j, hj⟩).nObs + 1 },
        by simp only [NonParametricProcess.updateSurrogateModel, hfirst j hj hji]
           rfl⟩) 0]
    simp [Except.map]

/-- Witness for C5: on the two-particle ensemble `M5` whose second
surrogate fails, both calls fail naming particle index 1. -/
theorem fit_failure_fails_whole_witness :
    M5.fitSurrogateModel = Except.error (BayesOptError.surrogateFitError 1)
    ∧ M5.updateSurrogateModel
        = Except.error (BayesOptError.surrogateFitError 1) := by
  have hfirst : ∀ (j : ℕ) (hj : j < M5.mGP.length), j < 1 →
      (M5.mGP.get ⟨j, hj⟩).fitOK = true := by
    intro j hj hj1
    have hj0 : j = 0 := by omega
    subst hj0
    rfl
  exact fit_failure_fails_whole M5 1 (by decide) (by decide) hfirst

/-- C10: `fitSurrogateModel` and `updateSurrogateModel` touch only the
surrogate collection: whenever either call completes normally, the
criterion collection and the particle count are exactly as before. -/
theorem surrogate_ops_frame :
    (∀ (m m2 : MCMCModel), m.fitSurrogateModel = Except.ok m2 →
        m2.mCrit = m.mCrit ∧ m2.nParticles = m.nParticles)
    ∧ (∀ (m m2 : MCMCModel), m.updateSurrogateModel = Except.ok m2 →
        m2.mCrit = m.mCrit ∧ m2.nParticles = m.nParticles) := by
  constructor
  · intro m m2 h
    unfold MCMCModel.fitSurrogateModel at h
    have h2 := mapGP_ok_frame NonParametricProcess.fitSurrogateModel m m2 h
    exact ⟨h2.1, h2.2.1⟩
  · intro m m2 h
    unfold MCMCModel.updateSurrogateModel at h
    have h2 := mapGP_ok_frame NonParametricProcess.updateSurrogateModel m m2 h
    exact ⟨h2.1, h2.2.1⟩

/-- Witness for C10: the single-particle ensemble `M1` fits to `M1F` and
updates to `M1U`; neither result changed the criterion collection or the
particle count. -/
theorem surrogate_ops_frame_witness :
    M1F.mCrit = M1.mCrit ∧ M1F.nParticles = M1.nParticles
    ∧ M1U.mCrit = M1.mCrit ∧ M1U.nParticles = M1.nParticles := by
  have h1 := surrogate_ops_frame.1 M1 M1F rfl
  have h2 := surrogate_ops_frame.2 M1 M1U rfl
  exact ⟨h1.1, h1.2, h2.1, h2.2⟩

/-- C6: the two particle collections have length exactly `nParticles`
after construction and after every successful `updateHyperParameters`,
and no operation changes the collection lengths or the particle count. -/
theorem particle_count_invariant :
    (∀ (dim : ℕ) (params : Parameters) (seed : ℕ),
        params.nParticles ≠ 0 → dim ≠ 0 →
        (mkMCMCModel dim params seed).map
            (fun m => (m.nParticles, m.mGP.length, m.mCrit.length))
          = Except.ok (params.nParticles, params.nParticles, params.nParticles))
    ∧ (∀ (m : MCMCModel) (seed : ℕ), m.nParticles ≠ 0 → m.dim ≠ 0 →
        (m.updateHyperParameters seed).map
            (fun m2 => (m2.nParticles, m2.mGP.length, m2.mCrit.length))
          = Except.ok (m.nParticles, m.nParticles, m.nParticles))
    ∧ (∀ (m m2 : MCMCModel), m.fitSurrogateModel = Except.ok m2 →
        m2.nParticles = m.nParticles ∧ m2.mGP.length = m.mGP.length
          ∧ m2.mCrit = m.mCrit)
    ∧ (∀ (m m2 : MCMCModel), m.updateSurrogateModel = Except.ok m2 →
        m2.nParticles = m.nParticles ∧ m2.mGP.length = m.mGP.length
          ∧ m2.mCrit = m.mCrit)
    ∧ (∀ (m : MCMCModel), m.setFirstCriterium.nParticles = m.nParticles
        ∧ m.setFirstCriterium.mGP = m.mGP
        ∧ m.setFirstCriterium.mCrit.length = m.mCrit.length)
    ∧ (∀ (m : MCMCModel) (r : Vectord),
        (m.setNextCriterium r).1.nParticles = m.nParticles
        ∧ (m.setNextCriterium r).1.mGP = m.mGP
        ∧ (m.setNextCriterium r).1.mCrit.length = m.mCrit.length) := by
  refine ⟨?_, ?_, ?_, ?_, ?_, ?_⟩
  · intro dim params seed h1 h2
    unfold mkMCMCModel
    rw [if_neg (by simp [h1, h2])]
    simp [Except.map, sampleParticles]
  · intro m seed h1 h2
    unfold MCMCModel.updateHyperParameters
    rw [if_neg (by simp [h1, h2])]
    simp [Except.map, sampleParticles]
  · intro m m2 h
    unfold MCMCModel.fitSurrogateModel at h
    have h2 := mapGP_ok_frame NonParametricProcess.fitSurrogateModel m m2 h
    exact ⟨h2.2.1, h2.2.2.2.2, h2.1⟩
  · intro m m2 h
    unfold MCMCModel.updateSurrogateModel at h
    have h2 := mapGP_ok_frame NonParametricProcess.updateSurrogateModel m m2 h
    exact ⟨h2.2.1, h2.2.2.2.2, h2.1⟩
  · intro m
    exact ⟨rfl, rfl, by simp [MCMCModel.setFirstCriterium]⟩
  · intro m r
    refine ⟨rfl, rfl, ?_⟩
    simp [MCMCModel.setNextCriterium, rotateAll_fst, pushHead_length]

/-- Witness for C6: construction with two particles yields collections of
length two; the one-particle ensemble keeps its count and lengths through
hyperparameter update, fit, incremental update, criterion initialization
and rotation. -/
theorem particle_count_invariant_witness :
    ((mkMCMCModel 1 { nParticles := 2, nCriteria := 1 } 0).map
        (fun m => (m.nParticles, m.mGP.length, m.mCrit.length))
      = Except.ok (2, 2, 2))
    ∧ ((M1.updateHyperParameters 3).map
        (fun m2 => (m2.nParticles, m2.mGP.length, m2.mCrit.length))
      = Except.ok (1, 1, 1))
    ∧ M1F.nParticles = M1.nParticles
    ∧ M1U.nParticles = M1.nParticles
    ∧ W2.setFirstCriterium.nParticles = W2.nParticles
    ∧ (W2.setNextCriterium [1]).1.mCrit.length = W2.mCrit.length := by
  have h := particle_count_invariant
  exact ⟨h.1 1 { nParticles := 2, nCriteria := 1 } 0 (by decide) (by decide),
    h.2.1 M1 3 (by decide) (by decide),
    (h.2.2.1 M1 M1F rfl).1,
    (h.2.2.2.1 M1 M1U rfl).1,
    (h.2.2.2.2.1 W2).1,
    (h.2.2.2.2.2 W2 [1]).2.2⟩

end BayesOpt
